import Mathlib

/-!
Verification of the friend-request / photo-sharing core of
`friendrequest_app.py` (Flask + SQLite).

The four SQLite tables (`users`, `friend_requests`, `photos`, `photo_tags`)
are embedded as lists of records; the `AUTOINCREMENT` primary keys are
modelled by explicit next-id counters.  Each Flask route body that mutates
or queries the database is embedded as a pure Lean function on this state;
an uncaught SQLite integrity error (foreign-key violation) on an insert
leaves the database unchanged because the transaction is never committed,
which the embedding reflects by returning an error without a new state.
Timestamps are stored by the source as ISO-8601 strings whose lexicographic
order agrees with chronological order; they are embedded as naturals.
File-extension checking and blob storage are presentation-layer / external
concerns (the core never inspects file contents), so `upload_photo` takes
the already-stored blob reference.
-/

namespace FriendApp

/-- Row of the `users` table (`id`, `username`, `password`, `joined`). -/
structure User where
  id : Nat
  username : String
  password : String
  joined : Nat
deriving DecidableEq, Repr

/-- Row of the `friend_requests` table
(`id`, `sender_id`, `receiver_id`, `status`, `created_at`).
The `status` column is TEXT, so it is a `String` here; nothing in the
schema restricts it beyond the code paths that write it. -/
structure FriendRequest where
  id : Nat
  sender_id : Nat
  receiver_id : Nat
  status : String
  created_at : Nat
deriving DecidableEq, Repr

/-- Row of the `photos` table
(`id`, `uploader_id`, `filename`, `caption`, `uploaded_at`). -/
structure Photo where
  id : Nat
  uploader_id : Nat
  filename : String
  caption : String
  uploaded_at : Nat
deriving DecidableEq, Repr

/-- Row of the `photo_tags` table, composite primary key
(`photo_id`, `user_id`). -/
structure PhotoTag where
  photo_id : Nat
  user_id : Nat
deriving DecidableEq, Repr

/-- The whole SQLite database plus the three AUTOINCREMENT counters. -/
structure DB where
  users : List User
  friend_requests : List FriendRequest
  photos : List Photo
  photo_tags : List PhotoTag
  nextUserId : Nat
  nextRequestId : Nat
  nextPhotoId : Nat
deriving DecidableEq, Repr

/-- The empty database produced by `init_db`. -/
def initDB : DB := ⟨[], [], [], [], 1, 1, 1⟩

deriving instance DecidableEq for Except

/-- Failure outcomes of the route bodies.  The first five correspond to
the flash-and-redirect error paths of the Flask routes; `integrityError`
is an uncaught SQLite foreign-key violation on an insert (HTTP 500, the
transaction is not committed). -/
inductive AppError where
  | validationError
  | usernameTakenError
  | selfRequestError
  | duplicateRequestError
  | notFoundError
  | invalidActionError
  | notFoundOrForbiddenError
  | integrityError
deriving DecidableEq, Repr

/-- `register` route (POST branch): reject blank fields, reject a taken
username, otherwise insert a new `users` row. -/
def register (db : DB) (username password : String) (now : Nat) :
    Except AppError DB :=
  if username = "" || password = "" then .error .validationError
  else if db.users.any (fun u => u.username == username) then
    .error .usernameTakenError
  else .ok { db with
    users := db.users ++ [⟨db.nextUserId, username, password, now⟩],
    nextUserId := db.nextUserId + 1 }

/-- `send_request` route: self-request check, then the duplicate check
`SELECT id FROM friend_requests WHERE sender_id = ? AND receiver_id = ?`
(any status), then `INSERT` of a `pending` row — whose foreign keys to
`users(id)` make it fail when sender or receiver does not exist. -/
def send_request (db : DB) (uid receiver_id : Nat) (now : Nat) :
    Except AppError DB :=
  if receiver_id = uid then .error .selfRequestError
  else if db.friend_requests.any
      (fun r => r.sender_id == uid && r.receiver_id == receiver_id) then
    .error .duplicateRequestError
  else if db.users.any (fun u => u.id == uid) &&
      db.users.any (fun u => u.id == receiver_id) then
    .ok { db with
      friend_requests := db.friend_requests ++
        [⟨db.nextRequestId, uid, receiver_id, "pending", now⟩],
      nextRequestId := db.nextRequestId + 1 }
  else .error .integrityError

/-- `respond_request` route: reject an action outside accept/reject up
front, look the request up by
`SELECT * FROM friend_requests WHERE id = ? AND receiver_id = ?`, and on
a hit run `UPDATE friend_requests SET status = ? WHERE id = ?` — note the
source checks nothing about the current status before the update. -/
def respond_request (db : DB) (uid req_id : Nat) (action : String) :
    Except AppError DB :=
  if action = "accept" ∨ action = "reject" then
    match db.friend_requests.find?
        (fun r => r.id == req_id && r.receiver_id == uid) with
    | none => .error .notFoundError
    | some _ =>
      let new_status := if action = "accept" then "accepted" else "rejected"
      let updated := db.friend_requests.map
        (fun r => if r.id = req_id then { r with status := new_status } else r)
      .ok { db with friend_requests := updated }
  else .error .invalidActionError

/-- The friend-id query repeated in the `dashboard`, `friends`, `photos`
and `upload_photo` routes:
`SELECT CASE WHEN sender_id = ? THEN receiver_id ELSE sender_id END
 FROM friend_requests
 WHERE (sender_id = ? OR receiver_id = ?) AND status = 'accepted'`. -/
def friend_ids (db : DB) (uid : Nat) : List Nat :=
  (db.friend_requests.filter
    (fun r => (r.sender_id == uid || r.receiver_id == uid) &&
      r.status == "accepted")).map
    (fun r => if r.sender_id = uid then r.receiver_id else r.sender_id)

/-- Insertion step of the embedding of SQL `ORDER BY key DESC`. -/
def insertDescBy {α : Type} (key : α → Nat) (x : α) : List α → List α
  | [] => [x]
  | y :: ys =>
    if key y ≤ key x then x :: y :: ys else y :: insertDescBy key x ys

/-- Embedding of SQL `ORDER BY key DESC` as an insertion sort. -/
def sortDescBy {α : Type} (key : α → Nat) : List α → List α
  | [] => []
  | x :: xs => insertDescBy key x (sortDescBy key xs)

/-- The pending-incoming query of the `dashboard` route:
`WHERE receiver_id = ? AND status = 'pending' ORDER BY created_at DESC`
(the join to `users` only attaches the sender's username; foreign keys
guarantee it never drops a row). -/
def pending_incoming (db : DB) (uid : Nat) : List FriendRequest :=
  sortDescBy (fun r => r.created_at)
    (db.friend_requests.filter
      (fun r => r.receiver_id == uid && r.status == "pending"))

/-- The `photos` route (the feed): photos whose uploader is in
`friend_ids ∪ {uid}`, ordered by `uploaded_at DESC`. -/
def photosFeed (db : DB) (uid : Nat) : List Photo :=
  sortDescBy (fun p => p.uploaded_at)
    (db.photos.filter
      (fun p => (friend_ids db uid ++ [uid]).contains p.uploader_id))

/-- The per-tag insert loop of `upload_photo`: each
`INSERT INTO photo_tags (photo_id, user_id)` sits in a try/except that
ignores the failure, and the insert fails exactly when the foreign key to
`users(id)` is violated (no such user) or the composite primary key
`(photo_id, user_id)` is violated (already tagged). -/
def insertTags (users : List User) (photo_id : Nat) :
    List PhotoTag → List Nat → List PhotoTag
  | tags, [] => tags
  | tags, fid :: rest =>
    if users.any (fun u => u.id == fid) &&
        !(tags.any (fun t => t.photo_id == photo_id && t.user_id == fid)) then
      insertTags users photo_id (tags ++ [⟨photo_id, fid⟩]) rest
    else insertTags users photo_id tags rest

/-- `upload_photo` route (POST branch, after the presentation-layer file
checks and the external blob store have produced `blob_ref`): insert the
`photos` row — its foreign key needs the uploader to exist — then run the
per-tag insert loop, then commit. Returns the new photo id. -/
def upload_photo (db : DB) (uid : Nat) (blob_ref caption : String)
    (tagged_ids : List Nat) (now : Nat) : Except AppError (DB × Nat) :=
  if db.users.any (fun u => u.id == uid) then
    let photo_id := db.nextPhotoId
    .ok ({ db with
      photos := db.photos ++ [⟨photo_id, uid, blob_ref, caption, now⟩],
      photo_tags := insertTags db.users photo_id db.photo_tags tagged_ids,
      nextPhotoId := db.nextPhotoId + 1 }, photo_id)
  else .error .integrityError

/-- `delete_photo` route:
`SELECT * FROM photos WHERE id = ? AND uploader_id = ?` collapses absence
and foreign ownership into one failure; on a hit it deletes the tag rows
(`WHERE photo_id = ?`) and the photo row (`WHERE id = ?`). -/
def delete_photo (db : DB) (uid photo_id : Nat) : Except AppError DB :=
  match db.photos.find?
      (fun p => p.id == photo_id && p.uploader_id == uid) with
  | none => .error .notFoundOrForbiddenError
  | some _ => .ok { db with
      photo_tags := db.photo_tags.filter (fun t => !(t.photo_id == photo_id)),
      photos := db.photos.filter (fun p => !(p.id == photo_id)) }

/-- The tag query of the `photo_detail` route:
`SELECT user_id FROM photo_tags WHERE photo_id = ?` (the join to `users`
only attaches usernames). -/
def tags_for (db : DB) (photo_id : Nat) : List Nat :=
  (db.photo_tags.filter (fun t => t.photo_id == photo_id)).map
    (fun t => t.user_id)

/-- One public operation of the app, i.e. one mutating HTTP request. -/
inductive Op where
  | register (username password : String) (now : Nat)
  | propose (uid receiver_id : Nat) (now : Nat)
  | resolve (uid req_id : Nat) (action : String)
  | upload (uid : Nat) (blob_ref caption : String)
      (tagged_ids : List Nat) (now : Nat)
  | delete (uid photo_id : Nat)
deriving DecidableEq, Repr

/-- Apply one operation; an error path never commits, so it leaves the
database exactly as it was. -/
def applyOp (db : DB) : Op → DB
  | .register u p n =>
    match register db u p n with | .ok db1 => db1 | .error _ => db
  | .propose a b n =>
    match send_request db a b n with | .ok db1 => db1 | .error _ => db
  | .resolve u r a =>
    match respond_request db u r a with | .ok db1 => db1 | .error _ => db
  | .upload u f c t n =>
    match upload_photo db u f c t n with | .ok p => p.1 | .error _ => db
  | .delete u p =>
    match delete_photo db u p with | .ok db1 => db1 | .error _ => db

/-- Run a sequence of operations from the freshly initialised database. -/
def runOps (ops : List Op) : DB := ops.foldl applyOp initDB

end FriendApp

namespace FriendApp

/-! ## Helper lemmas about the `ORDER BY ... DESC` embedding -/

theorem perm_insertDescBy {α : Type} (key : α → Nat) (x : α) (l : List α) :
    (insertDescBy key x l).Perm (x :: l) := by
  induction l with
  | nil => exact List.Perm.refl _
  | cons y ys ih =>
    simp only [insertDescBy]
    by_cases h : key y ≤ key x
    · rw [if_pos h]
    · rw [if_neg h]
      exact (ih.cons y).trans (List.Perm.swap x y ys)

theorem perm_sortDescBy {α : Type} (key : α → Nat) (l : List α) :
    (sortDescBy key l).Perm l := by
  induction l with
  | nil => exact List.Perm.refl _
  | cons x xs ih =>
    exact (perm_insertDescBy key x (sortDescBy key xs)).trans (ih.cons x)

theorem mem_insertDescBy {α : Type} (key : α → Nat) (x z : α) (l : List α) :
    z ∈ insertDescBy key x l ↔ z = x ∨ z ∈ l := by
  rw [(perm_insertDescBy key x l).mem_iff, List.mem_cons]

theorem pairwise_insertDescBy {α : Type} (key : α → Nat) (x : α) (l : List α)
    (h : l.Pairwise (fun a b => key b ≤ key a)) :
    (insertDescBy key x l).Pairwise (fun a b => key b ≤ key a) := by
  induction l with
  | nil => simp [insertDescBy]
  | cons y ys ih =>
    rw [List.pairwise_cons] at h
    obtain ⟨hy, hys⟩ := h
    simp only [insertDescBy]
    by_cases hxy : key y ≤ key x
    · rw [if_pos hxy, List.pairwise_cons]
      refine ⟨?_, ?_⟩
      · intro b hb
        rcases List.mem_cons.mp hb with hb | hb
        · exact hb ▸ hxy
        · exact le_trans (hy b hb) hxy
      · rw [List.pairwise_cons]
        exact ⟨hy, hys⟩
    · rw [if_neg hxy, List.pairwise_cons]
      refine ⟨?_, ih hys⟩
      intro b hb
      rcases (mem_insertDescBy key x b ys).mp hb with hb | hb
      · exact hb ▸ le_of_not_le hxy
      · exact hy b hb

theorem pairwise_sortDescBy {α : Type} (key : α → Nat) (l : List α) :
    (sortDescBy key l).Pairwise (fun a b => key b ≤ key a) := by
  induction l with
  | nil => simp [sortDescBy]
  | cons x xs ih => exact pairwise_insertDescBy key x _ ih

/-! ## Claims -/

/-- C9: `pending_incoming(user)` returns exactly the requests whose
receiver is that user and whose status is `pending` — as a multiset it is
a permutation of the ledger filter, and membership is characterised
exactly — ordered by created timestamp descending (most recent first),
for every ledger state. -/
theorem pending_incoming_exact_sorted_desc (db : DB) (uid : Nat) :
    (pending_incoming db uid).Perm
      (db.friend_requests.filter
        (fun r => r.receiver_id == uid && r.status == "pending")) ∧
    (∀ r : FriendRequest, r ∈ pending_incoming db uid ↔
      (r ∈ db.friend_requests ∧ r.receiver_id = uid ∧ r.status = "pending")) ∧
    (pending_incoming db uid).Pairwise
      (fun a b => b.created_at ≤ a.created_at) := by
  refine ⟨perm_sortDescBy _ _, ?_, pairwise_sortDescBy _ _⟩
  intro r
  rw [pending_incoming, (perm_sortDescBy _ _).mem_iff, List.mem_filter]
  simp [and_assoc]

/-- C4: `propose(A, A)` always fails with `SelfRequestError` and leaves
the database (in particular the friend-request ledger) unchanged. -/
theorem propose_self_always_fails (db : DB) (A now : Nat) :
    send_request db A A now = .error .selfRequestError ∧
    applyOp db (.propose A A now) = db := by
  constructor
  · simp [send_request]
  · simp [applyOp, send_request]

end FriendApp

namespace FriendApp

/-- Membership in the photo feed, unfolded: a photo appears in
`photosFeed db uid` iff it is a catalog photo whose uploader is the
viewer or one of the viewer's friend ids. -/
theorem mem_photosFeed_iff (db : DB) (uid : Nat) (p : Photo) :
    p ∈ photosFeed db uid ↔
      p ∈ db.photos ∧
        (p.uploader_id ∈ friend_ids db uid ∨ p.uploader_id = uid) := by
  rw [photosFeed, (perm_sortDescBy _ _).mem_iff, List.mem_filter]
  simp [List.contains]

/-- A sample run for the feed claim: one user who uploads one photo. -/
def opsFeed : List Op := [.register "alice" "pw" 0, .upload 1 "a.png" "hi" [] 1]

/-- A database holding two users and one pending request 1 → 2. -/
def dbPending : DB :=
  ⟨[⟨1, "alice", "pw", 0⟩, ⟨2, "bob", "pw", 0⟩],
   [⟨1, 1, 2, "pending", 0⟩], [], [], 3, 2, 1⟩

/-- C1: for every viewer `V` and every prior sequence of operations, the
feed returned for `V` contains only photos whose owner is `V` or one of
`V`'s friends. -/
theorem feed_only_self_or_friends (ops : List Op) (V : Nat) (p : Photo)
    (h : p ∈ photosFeed (runOps ops) V) :
    p.uploader_id = V ∨ p.uploader_id ∈ friend_ids (runOps ops) V := by
  rcases (mem_photosFeed_iff (runOps ops) V p).mp h with ⟨-, h2 | h2⟩
  · exact Or.inr h2
  · exact Or.inl h2

/-- Witness for C1 at a concrete run where the feed is non-empty. -/
theorem feed_only_self_or_friends_witness :
    (⟨1, 1, "a.png", "hi", 1⟩ : Photo) ∈ photosFeed (runOps opsFeed) 1 ∧
    ((⟨1, 1, "a.png", "hi", 1⟩ : Photo).uploader_id = 1 ∨
      (⟨1, 1, "a.png", "hi", 1⟩ : Photo).uploader_id ∈
        friend_ids (runOps opsFeed) 1) :=
  ⟨by decide, feed_only_self_or_friends opsFeed 1 ⟨1, 1, "a.png", "hi", 1⟩
    (by decide)⟩

/-- C2: friendship is symmetric: when the receiver `B` accepts a request
A → B (found by id and receiver, exactly as the route does), the single
directional row update makes `B` appear among `A`'s friend ids and `A`
among `B`'s. -/
theorem accept_makes_friendship_symmetric (db : DB) (A B req_id : Nat)
    (r : FriendRequest)
    (hfind : db.friend_requests.find?
      (fun q => q.id == req_id && q.receiver_id == B) = some r)
    (hs : r.sender_id = A) (hr : r.receiver_id = B) :
    ∃ db2, respond_request db B req_id "accept" = .ok db2 ∧
      B ∈ friend_ids db2 A ∧ A ∈ friend_ids db2 B := by
  have hmem : r ∈ db.friend_requests := List.mem_of_find?_eq_some hfind
  have hpred := List.find?_some hfind
  simp only [Bool.and_eq_true, beq_iff_eq] at hpred
  obtain ⟨hid, -⟩ := hpred
  have hresp : respond_request db B req_id "accept" = .ok { db with
      friend_requests := db.friend_requests.map
        (fun q => if q.id = req_id then { q with status := "accepted" }
          else q) } := by
    rw [respond_request, if_pos (Or.inl rfl), hfind]
    simp
  refine ⟨_, hresp, ?_, ?_⟩
  · refine List.mem_map.mpr ⟨{ r with status := "accepted" },
      List.mem_filter.mpr ⟨List.mem_map.mpr ⟨r, hmem, by rw [if_pos hid]⟩, ?_⟩, ?_⟩
    · simp [hs]
    · show (if r.sender_id = A then r.receiver_id else r.sender_id) = B
      rw [if_pos hs, hr]
  · refine List.mem_map.mpr ⟨{ r with status := "accepted" },
      List.mem_filter.mpr ⟨List.mem_map.mpr ⟨r, hmem, by rw [if_pos hid]⟩, ?_⟩, ?_⟩
    · simp [hr]
    · show (if r.sender_id = B then r.receiver_id else r.sender_id) = A
      by_cases hab : r.sender_id = B
      · rw [if_pos hab, hr, ← hab, hs]
      · rw [if_neg hab, hs]

/-- Witness for C2: Bob (id 2) accepts Alice's (id 1) pending request. -/
theorem accept_makes_friendship_symmetric_witness :
    ∃ db2, respond_request dbPending 2 1 "accept" = .ok db2 ∧
      2 ∈ friend_ids db2 1 ∧ 1 ∈ friend_ids db2 2 :=
  accept_makes_friendship_symmetric dbPending 1 2 1 ⟨1, 1, 2, "pending", 0⟩
    (by decide) rfl rfl

/-- C5: `resolve` fails with `NotFoundError` and leaves the database
unchanged whenever no request with the given id is addressed to the
calling receiver — in particular a non-receiver (the sender included)
cannot resolve an existing request. -/
theorem resolve_unauthorized_not_found (db : DB) (uid req_id : Nat)
    (action : String)
    (haction : action = "accept" ∨ action = "reject")
    (hnone : ∀ r ∈ db.friend_requests,
      ¬(r.id = req_id ∧ r.receiver_id = uid)) :
    respond_request db uid req_id action = .error .notFoundError ∧
    applyOp db (.resolve uid req_id action) = db := by
  have hfind : db.friend_requests.find?
      (fun r => r.id == req_id && r.receiver_id == uid) = none := by
    rw [List.find?_eq_none]
    intro r hrr
    simpa using hnone r hrr
  have h1 : respond_request db uid req_id action = .error .notFoundError := by
    rw [respond_request, if_pos haction, hfind]
  exact ⟨h1, by simp [applyOp, h1]⟩

/-- Witness for C5: the sender (id 1) of the pending request 1 → 2 tries
to resolve it and gets `NotFoundError`; nothing changes. -/
theorem resolve_unauthorized_not_found_witness :
    respond_request dbPending 1 1 "accept" = .error .notFoundError ∧
    applyOp dbPending (.resolve 1 1 "accept") = dbPending :=
  resolve_unauthorized_not_found dbPending 1 1 "accept" (by decide)
    (by decide)

end FriendApp

namespace FriendApp

/-- C3: once a request A → B exists (whatever its status), a second
`propose(A, B)` fails with `DuplicateRequestError` and changes nothing,
while `propose(B, A)` — the other ordered pair, assumed not yet present —
still succeeds and appends exactly one new `pending` row. -/
theorem propose_duplicate_ordered_pair (db : DB) (A B now : Nat)
    (hBA : B ≠ A)
    (hdup : ∃ r ∈ db.friend_requests,
      r.sender_id = A ∧ r.receiver_id = B)
    (hnoBA : ∀ r ∈ db.friend_requests,
      ¬(r.sender_id = B ∧ r.receiver_id = A))
    (hA : db.users.any (fun u => u.id == A) = true)
    (hB : db.users.any (fun u => u.id == B) = true) :
    send_request db A B now = .error .duplicateRequestError ∧
    applyOp db (.propose A B now) = db ∧
    send_request db B A now = .ok { db with
      friend_requests := db.friend_requests ++
        [⟨db.nextRequestId, B, A, "pending", now⟩],
      nextRequestId := db.nextRequestId + 1 } := by
  obtain ⟨r, hrmem, hrs, hrr⟩ := hdup
  have hany : db.friend_requests.any
      (fun q => q.sender_id == A && q.receiver_id == B) = true :=
    List.any_eq_true.mpr ⟨r, hrmem, by simp [hrs, hrr]⟩
  have h1 : send_request db A B now = .error .duplicateRequestError := by
    rw [send_request, if_neg hBA, if_pos hany]
  have hnoany : ¬(db.friend_requests.any
      (fun q => q.sender_id == B && q.receiver_id == A) = true) := by
    intro hcon
    obtain ⟨q, hqmem, hq⟩ := List.any_eq_true.mp hcon
    simp only [Bool.and_eq_true, beq_iff_eq] at hq
    exact hnoBA q hqmem hq
  refine ⟨h1, by simp [applyOp, h1], ?_⟩
  rw [send_request, if_neg (Ne.symm hBA), if_neg hnoany,
    if_pos (by simp [hA, hB])]

/-- Witness for C3 on the two-user database with the pending request
1 → 2: a duplicate 1 → 2 fails, the reverse 2 → 1 succeeds. -/
theorem propose_duplicate_ordered_pair_witness :
    send_request dbPending 1 2 7 = .error .duplicateRequestError ∧
    applyOp dbPending (.propose 1 2 7) = dbPending ∧
    send_request dbPending 2 1 7 = .ok { dbPending with
      friend_requests := dbPending.friend_requests ++
        [⟨dbPending.nextRequestId, 2, 1, "pending", 7⟩],
      nextRequestId := dbPending.nextRequestId + 1 } :=
  propose_duplicate_ordered_pair dbPending 1 2 7 (by decide) (by decide)
    (by decide) (by decide) (by decide)

/-- A run whose final state holds the request 1 → 2 resolved as
rejected by its receiver 2. -/
def opsReject : List Op :=
  [.register "alice" "pw" 0, .register "bob" "pw" 1,
   .propose 1 2 2, .resolve 2 1 "reject"]

/-- C6 counterexample: after request 1 → 2 was resolved by reject, a
second resolve on the very same request does NOT fail — no
`AlreadyResolvedError` exists anywhere in the code — it succeeds and
flips the terminal status from `rejected` straight to `accepted`. -/
theorem resolve_after_reject_accept_succeeds :
    respond_request (runOps opsReject) 2 1 "accept" =
      .ok ⟨[⟨1, "alice", "pw", 0⟩, ⟨2, "bob", "pw", 1⟩],
        [⟨1, 1, 2, "accepted", 2⟩], [], [], 3, 2, 1⟩ := by decide

/-- C6 as amended: after a request A → B is resolved by reject, B is not
among A's friend ids (while no other ledger row links A and B); but a
second resolve of the same request with either decision simply succeeds
again — the update is unconditional, so terminal states can be
overwritten and no `AlreadyResolvedError` is ever raised. -/
theorem reject_unfriends_reresolve_overwrites (db : DB) (A B req_id : Nat)
    (r : FriendRequest)
    (hfind : db.friend_requests.find?
      (fun q => q.id == req_id && q.receiver_id == B) = some r)
    (_hs : r.sender_id = A)
    (honly : ∀ q ∈ db.friend_requests,
      (q.sender_id = A ∧ q.receiver_id = B) ∨
        (q.sender_id = B ∧ q.receiver_id = A) → q.id = req_id)
    (action : String)
    (haction : action = "accept" ∨ action = "reject") :
    ∃ db2, respond_request db B req_id "reject" = .ok db2 ∧
      B ∉ friend_ids db2 A ∧
      ∃ db3, respond_request db2 B req_id action = .ok db3 := by
  have hmem : r ∈ db.friend_requests := List.mem_of_find?_eq_some hfind
  have hpred := List.find?_some hfind
  simp only [Bool.and_eq_true, beq_iff_eq] at hpred
  obtain ⟨hid, hrecv⟩ := hpred
  have hresp : respond_request db B req_id "reject" = .ok { db with
      friend_requests := db.friend_requests.map
        (fun q => if q.id = req_id then { q with status := "rejected" }
          else q) } := by
    rw [respond_request, if_pos (Or.inr rfl), hfind]
    rw [if_neg (by decide : ¬("reject" = "accept"))]
  refine ⟨_, hresp, ?_, ?_⟩
  · intro hBmem
    obtain ⟨q2, hq2f, hval⟩ := List.mem_map.mp hBmem
    obtain ⟨hq2mem, hq2pred⟩ := List.mem_filter.mp hq2f
    obtain ⟨q, hqmem, hq2eq⟩ := List.mem_map.mp hq2mem
    simp only [Bool.and_eq_true, Bool.or_eq_true, beq_iff_eq] at hq2pred
    obtain ⟨hAq, hacc⟩ := hq2pred
    by_cases hq : q.id = req_id
    · rw [if_pos hq] at hq2eq
      rw [← hq2eq] at hacc
      have hbad : ("rejected" : String) = "accepted" := hacc
      exact absurd hbad (by decide)
    · rw [if_neg hq] at hq2eq
      subst hq2eq
      apply hq
      apply honly q hqmem
      by_cases hsA : q.sender_id = A
      · rw [if_pos hsA] at hval
        exact Or.inl ⟨hsA, hval⟩
      · rw [if_neg hsA] at hval
        rcases hAq with hAq | hAq
        · exact absurd hAq hsA
        · exact Or.inr ⟨hval, hAq⟩
  · have hmem2 : (⟨r.id, r.sender_id, r.receiver_id, "rejected",
        r.created_at⟩ : FriendRequest) ∈ db.friend_requests.map
        (fun q => if q.id = req_id then { q with status := "rejected" }
          else q) := by
      refine List.mem_map.mpr ⟨r, hmem, ?_⟩
      rw [if_pos hid]
    cases heq : (db.friend_requests.map
        (fun q => if q.id = req_id then { q with status := "rejected" }
          else q)).find? (fun q => q.id == req_id && q.receiver_id == B) with
    | none =>
      exact absurd (by simp [hid, hrecv])
        (List.find?_eq_none.mp heq _ hmem2)
    | some q3 =>
      rw [respond_request, if_pos haction]
      simp only [heq]
      exact ⟨_, rfl⟩

/-- Witness for C6 as amended: receiver 2 rejects the pending request
1 → 2, the two are not friends afterwards, and resolving the same
request again with accept succeeds. -/
theorem reject_unfriends_reresolve_overwrites_witness :
    ∃ db2, respond_request dbPending 2 1 "reject" = .ok db2 ∧
      2 ∉ friend_ids db2 1 ∧
      ∃ db3, respond_request db2 2 1 "accept" = .ok db3 :=
  reject_unfriends_reresolve_overwrites dbPending 1 2 1
    ⟨1, 1, 2, "pending", 0⟩ (by decide) rfl (by decide) "accept"
    (by decide)

end FriendApp

namespace FriendApp

/-- A run producing two registered users (ids 1 and 2) who are not
friends and have no requests between them. -/
def opsTwoUsers : List Op :=
  [.register "alice" "pw" 0, .register "mallory" "pw" 1]

/-- C7 counterexample: user 2 exists but is NOT a friend of user 1
(their friend-id list is empty), yet `upload` by user 1 with tag
candidate 2 records the tag — the try/except around each tag insert only
catches integrity errors, and no constraint ties `photo_tags` to
friendship, so a non-friend id is not dropped. -/
theorem upload_records_nonfriend_tag :
    friend_ids (runOps opsTwoUsers) 1 = [] ∧
    upload_photo (runOps opsTwoUsers) 1 "f.png" "" [2] 5 =
      .ok (⟨[⟨1, "alice", "pw", 0⟩, ⟨2, "mallory", "pw", 1⟩], [],
        [⟨1, 1, "f.png", "", 5⟩], [⟨1, 2⟩], 3, 1, 2⟩, 1) ∧
    tags_for ⟨[⟨1, "alice", "pw", 0⟩, ⟨2, "mallory", "pw", 1⟩], [],
        [⟨1, 1, "f.png", "", 5⟩], [⟨1, 2⟩], 3, 1, 2⟩ 1 = [2] := by decide

/-- C7 as amended: the per-tag catch-and-ignore filters tag candidates
against user EXISTENCE (and per-photo uniqueness), not against the
owner's friend set: a candidate id belonging to no user is silently
dropped, while an existing user's id is recorded in the new photo's tag
set even when that user is not a friend of the owner; the photo is
created either way. -/
theorem upload_tag_filter_is_existence_only (db : DB) (uid X Y : Nat)
    (blob_ref caption : String) (now : Nat)
    (huid : db.users.any (fun u => u.id == uid) = true)
    (hX : ∃ u ∈ db.users, u.id = X)
    (hY : ∀ u ∈ db.users, u.id ≠ Y)
    (hfresh : ∀ t ∈ db.photo_tags, t.photo_id ≠ db.nextPhotoId) :
    (∃ db2, upload_photo db uid blob_ref caption [X] now =
        .ok (db2, db.nextPhotoId) ∧
      X ∈ tags_for db2 db.nextPhotoId) ∧
    (∃ db2, upload_photo db uid blob_ref caption [Y] now =
        .ok (db2, db.nextPhotoId) ∧
      tags_for db2 db.nextPhotoId = []) := by
  have hanyX : db.users.any (fun u => u.id == X) = true := by
    obtain ⟨u, hu, hux⟩ := hX
    exact List.any_eq_true.mpr ⟨u, hu, by simp [hux]⟩
  have hanyY : db.users.any (fun u => u.id == Y) = false := by
    rw [List.any_eq_false]
    intro u hu
    simp [hY u hu]
  have hnodup : db.photo_tags.any
      (fun t => t.photo_id == db.nextPhotoId && t.user_id == X) = false := by
    rw [List.any_eq_false]
    intro t ht
    simp [hfresh t ht]
  have hfilter : db.photo_tags.filter
      (fun t => t.photo_id == db.nextPhotoId) = [] := by
    rw [List.filter_eq_nil_iff]
    intro t ht
    simp [hfresh t ht]
  constructor
  · have htag : insertTags db.users db.nextPhotoId db.photo_tags [X] =
        db.photo_tags ++ [⟨db.nextPhotoId, X⟩] := by
      simp only [insertTags]
      rw [if_pos (by simp [hanyX, hnodup])]
    refine ⟨_, by rw [upload_photo, if_pos huid], ?_⟩
    show X ∈ tags_for _ db.nextPhotoId
    rw [tags_for]
    refine List.mem_map.mpr ⟨⟨db.nextPhotoId, X⟩, List.mem_filter.mpr ⟨?_, by simp⟩, rfl⟩
    show _ ∈ insertTags db.users db.nextPhotoId db.photo_tags [X]
    rw [htag]
    exact List.mem_append_right _ (List.mem_singleton.mpr rfl)
  · have htag : insertTags db.users db.nextPhotoId db.photo_tags [Y] =
        db.photo_tags := by
      simp only [insertTags]
      rw [if_neg (by simp [hanyY])]
    refine ⟨_, by rw [upload_photo, if_pos huid], ?_⟩
    show tags_for _ db.nextPhotoId = []
    rw [tags_for]
    show ((insertTags db.users db.nextPhotoId db.photo_tags [Y]).filter
      (fun t => t.photo_id == db.nextPhotoId)).map (fun t => t.user_id) = []
    rw [htag, hfilter]
    rfl

/-- Witness for C7 as amended, on the two-user no-friends database:
tag candidate 2 (an existing non-friend) is recorded, candidate 99
(no such user) is dropped. -/
theorem upload_tag_filter_is_existence_only_witness :
    (∃ db2, upload_photo (runOps opsTwoUsers) 1 "f.png" "" [2] 5 =
        .ok (db2, (runOps opsTwoUsers).nextPhotoId) ∧
      2 ∈ tags_for db2 (runOps opsTwoUsers).nextPhotoId) ∧
    (∃ db2, upload_photo (runOps opsTwoUsers) 1 "f.png" "" [99] 5 =
        .ok (db2, (runOps opsTwoUsers).nextPhotoId) ∧
      tags_for db2 (runOps opsTwoUsers).nextPhotoId = []) :=
  upload_tag_filter_is_existence_only (runOps opsTwoUsers) 1 2 99
    "f.png" "" 5 (by decide) (by decide) (by decide) (by decide)

end FriendApp

namespace FriendApp

/-- C8: `delete(photo_id, requester)` with a matching owned photo removes
that photo row and every tag row of that photo and nothing else; with no
matching owned photo (absent id or foreign owner — collapsed into one
check by the `WHERE id = ? AND uploader_id = ?` lookup) it fails with
`NotFoundOrForbiddenError` and leaves the database fully unchanged. -/
theorem delete_photo_owner_or_error (db : DB) (uid pid : Nat) :
    if db.photos.any (fun p => p.id == pid && p.uploader_id == uid) then
      delete_photo db uid pid = .ok { db with
        photo_tags := db.photo_tags.filter (fun t => !(t.photo_id == pid)),
        photos := db.photos.filter (fun p => !(p.id == pid)) }
    else
      delete_photo db uid pid = .error .notFoundOrForbiddenError ∧
      applyOp db (.delete uid pid) = db := by
  by_cases h : db.photos.any (fun p => p.id == pid && p.uploader_id == uid) = true
  · rw [if_pos h]
    cases heq : db.photos.find?
        (fun p => p.id == pid && p.uploader_id == uid) with
    | none =>
      obtain ⟨x, hx, hpx⟩ := List.any_eq_true.mp h
      exact absurd hpx (List.find?_eq_none.mp heq x hx)
    | some q =>
      rw [delete_photo, heq]
  · rw [if_neg h]
    have hfind : db.photos.find?
        (fun p => p.id == pid && p.uploader_id == uid) = none := by
      rw [List.find?_eq_none]
      intro x hx hpx
      exact h (List.any_eq_true.mpr ⟨x, hx, hpx⟩)
    have h1 : delete_photo db uid pid = .error .notFoundOrForbiddenError := by
      rw [delete_photo, hfind]
    exact ⟨h1, by simp [applyOp, h1]⟩

/-- The status-domain invariant of the friend-request ledger. -/
def StatusOk (db : DB) : Prop :=
  ∀ r ∈ db.friend_requests,
    r.status = "pending" ∨ r.status = "accepted" ∨ r.status = "rejected"

/-- Every single public operation preserves the status-domain
invariant: `propose` only inserts `pending`, `resolve` only writes
`accepted` or `rejected`, nothing else touches the ledger, and every
error path leaves the database unchanged. -/
theorem applyOp_statusOk (db : DB) (op : Op) (h : StatusOk db) :
    StatusOk (applyOp db op) := by
  cases op with
  | register u p n =>
    simp only [applyOp]
    split
    · next db1 heq =>
      unfold register at heq
      split at heq
      · exact absurd heq (by simp)
      · split at heq
        · exact absurd heq (by simp)
        · simp only [Except.ok.injEq] at heq
          subst heq
          exact h
    · exact h
  | propose a b n =>
    simp only [applyOp]
    split
    · next db1 heq =>
      unfold send_request at heq
      split at heq
      · exact absurd heq (by simp)
      · split at heq
        · exact absurd heq (by simp)
        · split at heq
          · simp only [Except.ok.injEq] at heq
            subst heq
            intro r hr
            rcases List.mem_append.mp hr with hr | hr
            · exact h r hr
            · rw [List.mem_singleton.mp hr]
              exact Or.inl rfl
          · exact absurd heq (by simp)
    · exact h
  | resolve u rid a =>
    simp only [applyOp]
    split
    · next db1 heq =>
      unfold respond_request at heq
      split at heq
      · split at heq
        · exact absurd heq (by simp)
        · simp only [Except.ok.injEq] at heq
          subst heq
          intro r hr
          obtain ⟨q, hq, hqr⟩ := List.mem_map.mp hr
          subst hqr
          by_cases hqid : q.id = rid
          · rw [if_pos hqid]
            by_cases ha : a = "accept"
            · rw [if_pos ha]
              exact Or.inr (Or.inl rfl)
            · rw [if_neg ha]
              exact Or.inr (Or.inr rfl)
          · rw [if_neg hqid]
            exact h q hq
      · exact absurd heq (by simp)
    · exact h
  | upload u f c t n =>
    simp only [applyOp]
    split
    · next p2 heq =>
      unfold upload_photo at heq
      split at heq
      · simp only [Except.ok.injEq] at heq
        rw [← heq]
        exact h
      · exact absurd heq (by simp)
    · exact h
  | delete u p =>
    simp only [applyOp]
    split
    · next db1 heq =>
      unfold delete_photo at heq
      split at heq
      · exact absurd heq (by simp)
      · simp only [Except.ok.injEq] at heq
        subst heq
        exact h
    · exact h

/-- C10: in every state reachable through the public operations, every
friend-request row's status is `pending`, `accepted` or `rejected`; and
a resolve whose decision is outside accept/reject is rejected up front
with `InvalidActionError`, leaving the database completely unchanged. -/
theorem status_invariant_reachable (ops : List Op) :
    StatusOk (runOps ops) ∧
    (∀ (db : DB) (uid req_id : Nat) (action : String),
      action ≠ "accept" → action ≠ "reject" →
      respond_request db uid req_id action = .error .invalidActionError ∧
      applyOp db (.resolve uid req_id action) = db) := by
  constructor
  · have aux : ∀ (l : List Op) (db : DB), StatusOk db →
        StatusOk (l.foldl applyOp db) := by
      intro l
      induction l with
      | nil => intro db hdb; exact hdb
      | cons o os ih =>
        intro db hdb
        exact ih (applyOp db o) (applyOp_statusOk db o hdb)
    exact aux ops initDB (by intro r hr; cases hr)
  · intro db uid req_id action h1 h2
    have hcond : ¬(action = "accept" ∨ action = "reject") := by
      rintro (hc | hc)
      · exact h1 hc
      · exact h2 hc
    have heq : respond_request db uid req_id action =
        .error .invalidActionError := by
      rw [respond_request, if_neg hcond]
    exact ⟨heq, by simp [applyOp, heq]⟩

/-- Witness for C10: the invariant holds after the concrete run
`opsReject`, and a resolve with decision `"flip"` on the two-user
database fails with `InvalidActionError`, changing nothing. -/
theorem status_invariant_reachable_witness :
    StatusOk (runOps opsReject) ∧
    (respond_request dbPending 2 1 "flip" = .error .invalidActionError ∧
      applyOp dbPending (.resolve 2 1 "flip") = dbPending) :=
  ⟨(status_invariant_reachable opsReject).1,
    (status_invariant_reachable opsReject).2 dbPending 2 1 "flip"
      (by decide) (by decide)⟩

end FriendApp
